import Mathlib

/-!
Verification development for the Street View tile-stitching pipeline
(`stitchStreetViewImage` and its helpers, plus the resolution catalog).

The TypeScript source operates on DOM canvases; here images are modelled as
a width, a height and a total pixel function.  Float comparisons in the
source (`x / y < 0.02`, `> 0.05`, `< 8`, `< 15`) are modelled as exact
rational comparisons, written in cleared-denominator integer form; for the
pixel counts and widths reachable by the program the floating-point and
rational readings agree (the quantities compared differ by far more than
the rounding error of a 64-bit float).  Degenerate zero-sized canvases, on
which the DOM `getImageData` would throw, are outside the scope of the
claims; the embedding simply returns the input image unchanged there.
-/

/-- One RGB pixel; alpha is never inspected by the source, so it is omitted. -/
structure Pixel where
  r : Nat
  g : Nat
  b : Nat
deriving DecidableEq, Repr

/-- An image: dimensions plus a (total) pixel function. -/
structure Image where
  width : Nat
  height : Nat
  pix : Nat → Nat → Pixel

/-- The pure black sentinel pixel. -/
def blackPixel : Pixel := ⟨0, 0, 0⟩

/-- An all-black (sentinel background) image, as produced by
`ctx.fillStyle = 'black'; ctx.fillRect(...)` on a fresh canvas. -/
def blackImage (w h : Nat) : Image := ⟨w, h, fun _ _ => blackPixel⟩

/-- The contiguous subregion of `img` with origin `(ox, oy)` and size `w × h`,
as produced by `drawImage(canvas, ox, oy, w, h, 0, 0, w, h)`. -/
def subImage (img : Image) (ox oy w h : Nat) : Image :=
  ⟨w, h, fun x y => img.pix (ox + x) (oy + y)⟩

/-- Draw `img` onto `base` at offset `(ox, oy)` (natural size, no blending),
as `ctx.drawImage(img, ox, oy)` does; pixels outside the drawn rectangle
keep the base value. -/
def drawImageAt (base img : Image) (ox oy : Nat) : Image :=
  ⟨base.width, base.height, fun x y =>
    if ox ≤ x ∧ x < ox + img.width ∧ oy ≤ y ∧ y < oy + img.height then
      img.pix (x - ox) (y - oy)
    else base.pix x y⟩

/-- `data[i] > 25 || data[i+1] > 25 || data[i+2] > 25`: some channel exceeds
the brightness threshold used throughout the source. -/
def isBrightPixel (p : Pixel) : Bool :=
  decide (25 < p.r) || decide (25 < p.g) || decide (25 < p.b)

/-- Number of sampled pixels when striding through `n` pixels 16 at a time
(`for (i = 0; i < 4*n; i += 4*16)` over RGBA bytes). -/
def tileSampleCount (img : Image) : Nat :=
  (img.width * img.height + 15) / 16

/-- How many of the sampled pixels of `isTileBlack`'s stride are bright.
The flat RGBA index `i = 64k` addresses pixel `16k`, i.e. row-major
coordinates `(16k % width, 16k / width)`. -/
def tileSampleBrightCount (img : Image) : Nat :=
  ((List.range (tileSampleCount img)).map (fun k => 16 * k)).countP
    (fun p => isBrightPixel (img.pix (p % img.width) (p / img.width)))

/-- `isTileBlack` from the source: stride-sample every 16th pixel, count the
bright ones, and classify blank when the bright fraction is below 2%
(`nonBlackCount / checkedPixels < 0.02`, i.e. `50 * nonBlack < checked`).
An empty sample (zero-pixel image) compares `NaN < 0.02` in the source,
which is false. -/
def isTileBlack (img : Image) : Bool :=
  decide (tileSampleCount img ≠ 0) &&
    decide (50 * tileSampleBrightCount img < tileSampleCount img)

/-- `isRowBlack` from `cropBlackEdges`: sample every 4th pixel of row `y`
(`i += 4*4` over the row's RGBA bytes) and test the 2% tolerance.  The
source's early exit (`nonBlack / (width/4) > 0.05`) can only fire when the
final 2% test would also classify the row non-black, so it does not change
the result and is not modelled separately. -/
def isRowBlack (img : Image) (y : Nat) : Bool :=
  let checked := (img.width + 3) / 4
  let nonBlack := ((List.range checked).map (fun k => 4 * k)).countP
    (fun x => isBrightPixel (img.pix x y))
  decide (checked ≠ 0) && decide (50 * nonBlack < checked)

/-- `isColBlack` from `cropBlackEdges`: same as `isRowBlack` down column `x`. -/
def isColBlack (img : Image) (x : Nat) : Bool :=
  let checked := (img.height + 3) / 4
  let nonBlack := ((List.range checked).map (fun k => 4 * k)).countP
    (fun y => isBrightPixel (img.pix x y))
  decide (checked ≠ 0) && decide (50 * nonBlack < checked)

/-- Least `t < n` with `p t = true`, the value at which an ascending
`while (i <= hi && !p(i)) i++` scan stops (`none` when the scan runs off
the end). -/
def leastWitness (p : Nat → Bool) : Nat → Option Nat
  | 0 => none
  | n + 1 =>
    match leastWitness p n with
    | some t => some t
    | none => if p n then some n else none

/-- Greatest `t < n` with `p t = true`, where a descending scan stops. -/
def greatestWitness (p : Nat → Bool) : Nat → Option Nat
  | 0 => none
  | n + 1 => if p n then some n else greatestWitness p n

/-- `cropBlackEdges`, with the outcome of each of its two `getContext`
calls made explicit (`readOk` for the scanning context, `writeOk` for the
destination canvas's context; on failure the source returns the input
canvas).  The four sequential while-scans of the source are equivalent to:
`top`/`left` are the least non-black row/column, `bottom`/`right` the
greatest; if either scan finds nothing (`top > bottom` or `left > right`
in the source) the canvas is returned unchanged, likewise when the full
extent survives; otherwise the inclusive rectangle is copied out. -/
def cropBlackEdgesCtx (readOk writeOk : Bool) (img : Image) : Image :=
  if !readOk then img else
  match leastWitness (fun y => !isRowBlack img y) img.height,
        leastWitness (fun x => !isColBlack img x) img.width with
  | some top, some left =>
    let bottom := (greatestWitness (fun y => !isRowBlack img y) img.height).getD
      (img.height - 1)
    let right := (greatestWitness (fun x => !isColBlack img x) img.width).getD
      (img.width - 1)
    if top = 0 && bottom = img.height - 1 && left = 0 && right = img.width - 1 then
      img
    else if writeOk then
      subImage img left top (right + 1 - left) (bottom + 1 - top)
    else img
  | _, _ => img

/-- `cropBlackEdges` when both rendering contexts are available. -/
def cropBlackEdges (img : Image) : Image := cropBlackEdgesCtx true true img

/-- Per-candidate total channel difference of `removeHorizontalWrap`:
rows `y = 0, 8, 16, …  < scanH`, reference columns `wx = 0, 4, 8, 12`
(`W = 16`, every 4th), comparing the left reference strip against the
search window at horizontal offset `dx` from `startX`. -/
def wrapDiffTotal (img : Image) (startX startY scanH dx : Nat) : Nat :=
  ((List.range ((scanH + 7) / 8)).map (fun j => 8 * j)).foldl
    (fun acc y =>
      ((List.range 4).map (fun m => 4 * m)).foldl
        (fun a wx =>
          let p := img.pix wx (startY + y)
          let q := img.pix (startX + dx + wx) (startY + y)
          a + Nat.dist p.r q.r + Nat.dist p.g q.g + Nat.dist p.b q.b)
        acc)
    0

/-- `pixelsChecked` of one candidate offset: it does not depend on `dx`. -/
def wrapSampleCount (scanH : Nat) : Nat := ((scanH + 7) / 8) * 4

/-- The candidate-offset scan of `removeHorizontalWrap`.  State is the
current `(bestMatchX, minDiff-numerator)`; `avgDiff < c` for the float
`avgDiff = T / (3 * n)` is the exact comparison `T < 3 * n * c`
(`c = 8` for the strict short-circuit).  On the short-circuit the source
sets `bestMatchX` to the current offset and breaks. -/
def wrapScanAux (img : Image) (startX startY scanH n : Nat) :
    List Nat → Option (Nat × Nat) → Option (Nat × Nat)
  | [], best => best
  | dx :: rest, best =>
    let T := wrapDiffTotal img startX startY scanH dx
    let best' :=
      match best with
      | none => some (startX + dx, T)
      | some (bx, bT) => if T < bT then some (startX + dx, T) else some (bx, bT)
    if T < 24 * n then
      match best' with
      | some (_, bT) => some (startX + dx, bT)
      | none => some (startX + dx, T)
    else wrapScanAux img startX startY scanH n rest best'

/-- `removeHorizontalWrap`, with its two `getContext` outcomes explicit.
`startY = floor(0.3 h)`, `scanHeight = floor(0.4 h)` (exact on floats for
all realizable heights), `startX = floor(w / 4)`; candidates are
`dx = 0, 2, 4, … < searchWidth - 16`; after the scan the crop fires iff the
best average difference is below 15 (`minDiff-numerator < 45 * n`), taking
the left prefix of width `bestMatchX` at full height. -/
def removeHorizontalWrapCtx (readOk writeOk : Bool) (img : Image) : Image :=
  if !readOk then img else
  let w := img.width
  let h := img.height
  let startY := 3 * h / 10
  let scanH := 2 * h / 5
  if scanH = 0 || w < 512 then img else
  let startX := w / 4
  let searchW := w - startX
  if searchW ≤ 16 then img else
  let dxs := (List.range ((searchW - 16 + 1) / 2)).map (fun i => 2 * i)
  let n := wrapSampleCount scanH
  match wrapScanAux img startX startY scanH n dxs none with
  | some (bx, mT) =>
    if mT < 45 * n && writeOk then subImage img 0 0 bx h else img
  | none => img

/-- `removeHorizontalWrap` when both rendering contexts are available. -/
def removeHorizontalWrap (img : Image) : Image :=
  removeHorizontalWrapCtx true true img

/-- One entry of `GRID_SIZES` from `constants.ts`. -/
structure GridSize where
  zoom : Nat
  x : Nat
  y : Nat
deriving DecidableEq, Repr

/-- `GRID_SIZES`: tiles on each axis per zoom level. -/
def GRID_SIZES : List GridSize := [⟨3, 8, 4⟩, ⟨4, 16, 8⟩]

/-- `TILE_SIZE` from `constants.ts`. -/
def TILE_SIZE : Nat := 512

/-- The `Resolution` record from `types.ts`. -/
structure Resolution where
  zoom : Nat
  width : Nat
  height : Nat
  label : String
  tileCount : Nat
deriving DecidableEq, Repr

/-- `getAvailableResolutions`: one `Resolution` per `GRID_SIZES` entry, with
`labels[index] || `Zoom ${zoom}`` as the label. -/
def getAvailableResolutions : List Resolution :=
  let labels := ["High", "Maximum"]
  (GRID_SIZES.enum).map (fun gi =>
    { zoom := gi.2.zoom
      width := gi.2.x * TILE_SIZE
      height := gi.2.y * TILE_SIZE
      label := (labels.get? gi.1).getD ("Zoom " ++ toString gi.2.zoom)
      tileCount := gi.2.x * gi.2.y })

/-- The `Progress` record from `types.ts`. -/
structure Progress where
  loaded : Nat
  total : Nat
deriving DecidableEq, Repr

/-- The two fatal error classes `stitchStreetViewImage` can throw. -/
inductive StitchError where
  | invalidZoom
  | renderingUnavailable
deriving DecidableEq, Repr

/-- Availability of each `getContext('2d')` call site during one job:
the classifier's canvas, the main compositing canvas, and the read/write
contexts of the cropper and of the wrap detector. -/
structure CanvasEnv where
  classify : Bool
  main : Bool
  cropRead : Bool
  cropWrite : Bool
  wrapRead : Bool
  wrapWrite : Bool
deriving DecidableEq, Repr

/-- The environment in which every rendering context is obtainable. -/
def CanvasEnv.allOk : CanvasEnv := ⟨true, true, true, true, true, true⟩

/-- `isTileBlack` as called inside a job: when its `getContext` fails the
source returns `false` (tile treated as non-blank). -/
def isTileBlackCtx (env : CanvasEnv) (img : Image) : Bool :=
  if env.classify then isTileBlack img else false

/-- Row-major tile coordinates (`y` outer, `x` inner), via the flat index
`i = y * grid.x + x`. -/
def tileCoords (g : GridSize) : List (Nat × Nat) :=
  (List.range (g.x * g.y)).map (fun i => (i % g.x, i / g.x))

/-- What `processTile` stores for one coordinate: the fetched image when it
loaded and was not classified blank, otherwise `none` (the source stores
`null` both on classification and on retry-exhausted rejection, the latter
via the `catch` branch). -/
def processTileResult (env : CanvasEnv) (fetch : Nat × Nat → Option Image)
    (c : Nat × Nat) : Option Image :=
  match fetch c with
  | some img => if isTileBlackCtx env img then none else some img
  | none => none

/-- Settle the queue in the given completion order: returns the `Progress`
emissions after the initial one (each settle runs `loadedTiles++` then
`onProgress`) and the per-coordinate stores into `images`. -/
def runQueue (env : CanvasEnv) (fetch : Nat × Nat → Option Image) :
    List (Nat × Nat) → Nat → Nat → List Progress × List ((Nat × Nat) × Option Image)
  | [], _, _ => ([], [])
  | c :: rest, loaded, total =>
    let r := processTileResult env fetch c
    let rec' := runQueue env fetch rest (loaded + 1) total
    (⟨loaded + 1, total⟩ :: rec'.1, (c, r) :: rec'.2)

/-- Reading `images[`x,y`]` in the compositing loop: a missing key and a
stored `null` are both falsy, so both skip the draw. -/
def lookupResult (rs : List ((Nat × Nat) × Option Image)) (c : Nat × Nat) :
    Option Image :=
  ((rs.lookup c).getD none)

/-- The compositing loop: black-filled full-grid canvas, then each non-null
stored tile drawn at `(x * TILE_SIZE, y * TILE_SIZE)` in row-major order. -/
def compositeImage (g : GridSize) (rs : List ((Nat × Nat) × Option Image)) :
    Image :=
  (tileCoords g).foldl
    (fun acc c =>
      match lookupResult rs c with
      | some img => drawImageAt acc img (c.1 * TILE_SIZE) (c.2 * TILE_SIZE)
      | none => acc)
    (blackImage (g.x * TILE_SIZE) (g.y * TILE_SIZE))

/-- Everything observable about one `stitchStreetViewImage` run: the
`onProgress` emissions in order, the coordinates for which a tile fetch was
issued, the final `images` store, and the job outcome. -/
structure StitchOutcome where
  progressTrace : List Progress
  fetched : List (Nat × Nat)
  results : List ((Nat × Nat) × Option Image)
  result : Except StitchError Image

/-- `stitchStreetViewImage`.  `fetch` is the outcome oracle of
`fetchTileWithRetry` (`none` = rejected after retry exhaustion); `order`
is the order in which the concurrent workers' tile settles complete — the
shared-queue worker pool settles each enumerated coordinate exactly once,
so a run of the source corresponds to `order` being a permutation of
`tileCoords grid`.  Unknown zoom throws before any progress emission or
fetch; an unavailable main-canvas context throws after all tiles settle. -/
def stitchStreetViewImage (env : CanvasEnv) (fetch : Nat × Nat → Option Image)
    (zoom : Nat) (order : List (Nat × Nat)) : StitchOutcome :=
  match GRID_SIZES.find? (fun g => g.zoom == zoom) with
  | none => ⟨[], [], [], .error .invalidZoom⟩
  | some grid =>
    let total := (tileCoords grid).length
    let run := runQueue env fetch order 0 total
    let trace := ⟨0, total⟩ :: run.1
    if !env.main then ⟨trace, order, run.2, .error .renderingUnavailable⟩
    else
      let comp := compositeImage grid run.2
      let cropped := cropBlackEdgesCtx env.cropRead env.cropWrite comp
      let finalImg := removeHorizontalWrapCtx env.wrapRead env.wrapWrite cropped
      ⟨trace, order, run.2, .ok finalImg⟩

/-- `out` is a contiguous subregion of `inp`: its pixel grid is `inp`'s
translated by some in-bounds origin, with no pixel altered. -/
def IsSubregion (out inp : Image) : Prop :=
  ∃ ox oy, ox + out.width ≤ inp.width ∧ oy + out.height ≤ inp.height ∧
    ∀ x y, x < out.width → y < out.height → out.pix x y = inp.pix (ox + x) (oy + y)

/-- The progress values emitted by `n` consecutive settles starting from a
given loaded count. -/
def traceFrom (loaded total : Nat) : Nat → List Progress
  | 0 => []
  | n + 1 => ⟨loaded + 1, total⟩ :: traceFrom (loaded + 1) total n

/-- The all-Absent tile-result set: every enumerated coordinate stored as
`null`. -/
def allAbsentResults (g : GridSize) : List ((Nat × Nat) × Option Image) :=
  (tileCoords g).map (fun c => (c, none))

/-- A 12×8 test image, bright only at (4,0), (1,4) and (8,4). -/
def ex4 : Image :=
  ⟨12, 8, fun x y =>
    if (x = 4 ∧ y = 0) ∨ (x = 1 ∧ y = 4) ∨ (x = 8 ∧ y = 4) then ⟨255, 255, 255⟩
    else ⟨0, 0, 0⟩⟩

/-- Bright-pixel count over ALL pixels of an image — the quantity the spec's
"more than 2% of all pixels" reading of the classifier bound refers to
(the source itself only counts a 1-in-16 stride sample). -/
def brightCountAll (img : Image) : Nat :=
  (List.range (img.width * img.height)).countP
    (fun p => isBrightPixel (img.pix (p % img.width) (p / img.width)))

/-- A 17×1 test image with exactly one bright pixel, at x = 1 — off the
classifier's sampling stride. -/
def ex5 : Image :=
  ⟨17, 1, fun x _ => if x = 1 then ⟨255, 255, 255⟩ else ⟨0, 0, 0⟩⟩

/-- A 4×4 all-bright test image. -/
def allBright4 : Image := ⟨4, 4, fun _ _ => ⟨255, 255, 255⟩⟩

/-- A uniform mid-gray 512×512 tile. -/
def grayTile : Image := ⟨512, 512, fun _ _ => ⟨128, 128, 128⟩⟩

/-- Environment in which the classifier's, the cropper's and the wrap
detector's `getContext` calls all fail, but the main compositing canvas's
succeeds. -/
def envNoClassifyCtx : CanvasEnv := ⟨false, true, false, true, false, true⟩

/-- Environment in which only the main compositing canvas's `getContext`
fails. -/
def envNoMainCtx : CanvasEnv := ⟨true, false, true, true, true, true⟩

theorem leastWitness_some {p : Nat → Bool} :
    ∀ {n t : Nat}, leastWitness p n = some t → t < n ∧ p t = true := by
  intro n
  induction n with
  | zero => intro t h; simp [leastWitness] at h
  | succ m ih =>
    intro t h
    rw [leastWitness] at h
    cases hm : leastWitness p m with
    | some s =>
      rw [hm] at h
      obtain ⟨hlt, hp⟩ := ih hm
      cases h
      exact ⟨Nat.lt_succ_of_lt hlt, hp⟩
    | none =>
      rw [hm] at h
      by_cases hpn : p m = true
      · simp [hpn] at h
        cases h
        exact ⟨Nat.lt_succ_self m, hpn⟩
      · simp [hpn] at h

theorem leastWitness_eq_none {p : Nat → Bool} :
    ∀ {n : Nat}, (∀ y, y < n → p y = false) → leastWitness p n = none := by
  intro n
  induction n with
  | zero => intro _; rfl
  | succ m ih =>
    intro h
    rw [leastWitness, ih (fun y hy => h y (Nat.lt_succ_of_lt hy))]
    simp [h m (Nat.lt_succ_self m)]

theorem greatestWitness_some {p : Nat → Bool} :
    ∀ {n t : Nat}, greatestWitness p n = some t → t < n ∧ p t = true := by
  intro n
  induction n with
  | zero => intro t h; simp [greatestWitness] at h
  | succ m ih =>
    intro t h
    rw [greatestWitness] at h
    by_cases hpn : p m = true
    · simp [hpn] at h
      cases h
      exact ⟨Nat.lt_succ_self m, hpn⟩
    · simp [hpn] at h
      obtain ⟨hlt, hp⟩ := ih h
      exact ⟨Nat.lt_succ_of_lt hlt, hp⟩

theorem greatestWitness_of_least {p : Nat → Bool} :
    ∀ {n t : Nat}, leastWitness p n = some t →
      ∃ b, greatestWitness p n = some b ∧ t ≤ b := by
  intro n
  induction n with
  | zero => intro t h; simp [leastWitness] at h
  | succ m ih =>
    intro t h
    rw [leastWitness] at h
    rw [greatestWitness]
    by_cases hpn : p m = true
    · refine ⟨m, by simp [hpn], ?_⟩
      exact Nat.lt_succ_iff.mp (leastWitness_some (n := m + 1) (by rw [leastWitness]; exact h)).1
    · simp only [hpn, if_false]
      cases hm : leastWitness p m with
      | some s =>
        rw [hm] at h
        cases h
        exact ih hm
      | none =>
        rw [hm] at h
        simp [hpn] at h

theorem cropBlackEdgesCtx_shape (ro wo : Bool) (img : Image) :
    cropBlackEdgesCtx ro wo img = img ∨
      ∃ L t R b, L ≤ R ∧ R < img.width ∧ t ≤ b ∧ b < img.height ∧
        cropBlackEdgesCtx ro wo img = subImage img L t (R + 1 - L) (b + 1 - t) := by
  cases ro with
  | false => exact Or.inl rfl
  | true =>
    cases hrow : leastWitness (fun y => !isRowBlack img y) img.height with
    | none => left; simp [cropBlackEdgesCtx, hrow]
    | some top =>
      cases hcol : leastWitness (fun x => !isColBlack img x) img.width with
      | none => left; simp [cropBlackEdgesCtx, hrow, hcol]
      | some L =>
        obtain ⟨b, hb, htb⟩ := greatestWitness_of_least hrow
        obtain ⟨R, hR, hLR⟩ := greatestWitness_of_least hcol
        have hbh := (greatestWitness_some hb).1
        have hRw := (greatestWitness_some hR).1
        have hred : cropBlackEdgesCtx true wo img =
            (if top = 0 && b = img.height - 1 && L = 0 && R = img.width - 1 then img
             else if wo then subImage img L top (R + 1 - L) (b + 1 - top)
             else img) := by
          simp [cropBlackEdgesCtx, hrow, hcol, hb, hR]
        rw [hred]
        by_cases hfull :
            (top = 0 && b = img.height - 1 && L = 0 && R = img.width - 1) = true
        · left; rw [if_pos hfull]
        · rw [if_neg hfull]
          cases wo with
          | false => exact Or.inl rfl
          | true => exact Or.inr ⟨L, top, R, b, hLR, hRw, htb, hbh, rfl⟩

theorem cropBlackEdgesCtx_frame (ro wo : Bool) (img : Image) :
    (cropBlackEdgesCtx ro wo img = img ∨
       IsSubregion (cropBlackEdgesCtx ro wo img) img) ∧
    (cropBlackEdgesCtx ro wo img).width ≤ img.width ∧
    (cropBlackEdgesCtx ro wo img).height ≤ img.height := by
  rcases cropBlackEdgesCtx_shape ro wo img with h | ⟨L, t, R, b, hLR, hRw, htb, hbh, h⟩
  · exact ⟨Or.inl h, Nat.le_of_eq (congrArg Image.width h),
      Nat.le_of_eq (congrArg Image.height h)⟩
  · rw [h]
    refine ⟨Or.inr ⟨L, t, ?_, ?_, fun x y _ _ => rfl⟩, ?_, ?_⟩ <;>
      simp [subImage] <;> omega

theorem wrapScanAux_fst_lt (img : Image) (startX startY scanH n bound : Nat) :
    ∀ (l : List Nat) (best : Option (Nat × Nat)),
      (∀ bx bT, best = some (bx, bT) → bx < bound) →
      (∀ dx ∈ l, startX + dx < bound) →
      ∀ bx bT, wrapScanAux img startX startY scanH n l best = some (bx, bT) →
        bx < bound := by
  intro l
  induction l with
  | nil =>
    intro best hb _ bx bT h
    exact hb bx bT h
  | cons dx rest ih =>
    intro best hb hl bx bT h
    rw [wrapScanAux.eq_def] at h
    dsimp only at h
    have hdx : startX + dx < bound := hl dx (List.mem_cons_self dx rest)
    have hb' : ∀ bx' bT',
        (match best with
          | none => some (startX + dx, wrapDiffTotal img startX startY scanH dx)
          | some (bx0, bT0) =>
            if wrapDiffTotal img startX startY scanH dx < bT0 then
              some (startX + dx, wrapDiffTotal img startX startY scanH dx)
            else some (bx0, bT0)) = some (bx', bT') → bx' < bound := by
      intro bx' bT' hbest
      cases best with
      | none =>
        cases hbest
        exact hdx
      | some pair =>
        obtain ⟨bx0, bT0⟩ := pair
        dsimp only at hbest
        split at hbest <;> cases hbest
        · exact hdx
        · exact hb _ _ rfl
    split at h
    · split at h <;> cases h <;> exact hdx
    · exact ih _ hb' (fun d hd => hl d (List.mem_cons_of_mem _ hd)) bx bT h

theorem removeHorizontalWrapCtx_shape (ro wo : Bool) (img : Image) :
    removeHorizontalWrapCtx ro wo img = img ∨
      ∃ k, k ≤ img.width ∧
        removeHorizontalWrapCtx ro wo img = subImage img 0 0 k img.height := by
  cases ro with
  | false => exact Or.inl rfl
  | true =>
    rw [removeHorizontalWrapCtx]
    simp only [Bool.not_true, Bool.false_eq_true, if_false]
    split
    · exact Or.inl rfl
    · rename_i hguard
      split
      · exact Or.inl rfl
      · rename_i hsw
        split
        · rename_i bx mT hscan
          split
          · right
            refine ⟨bx, ?_, rfl⟩
            have hw512 : ¬(2 * img.height / 5 = 0 ∨ img.width < 512) := by
              simpa using hguard
            have hbound : bx < img.width := by
              refine wrapScanAux_fst_lt img (img.width / 4) (3 * img.height / 10)
                (2 * img.height / 5) (wrapSampleCount (2 * img.height / 5))
                img.width _ none (by intro _ _ h; cases h) ?_ bx mT hscan
              intro dx hdx
              simp only [List.mem_map, List.mem_range] at hdx
              obtain ⟨i, hi, rfl⟩ := hdx
              omega
            exact Nat.le_of_lt hbound
          · exact Or.inl rfl
        · exact Or.inl rfl

theorem runQueue_fst (env : CanvasEnv) (fetch : Nat × Nat → Option Image) :
    ∀ (l : List (Nat × Nat)) (loaded total : Nat),
      (runQueue env fetch l loaded total).1 = traceFrom loaded total l.length := by
  intro l
  induction l with
  | nil => intro loaded total; rfl
  | cons c rest ih =>
    intro loaded total
    simp only [runQueue, List.length_cons, traceFrom]
    rw [ih]

theorem traceFrom_length (total : Nat) :
    ∀ (n loaded : Nat), (traceFrom loaded total n).length = n := by
  intro n
  induction n with
  | zero => intro loaded; rfl
  | succ m ih =>
    intro loaded
    simp only [traceFrom, List.length_cons, ih]

theorem traceFrom_getElem? (total : Nat) :
    ∀ (n k loaded : Nat), k < n →
      (traceFrom loaded total n)[k]? = some ⟨loaded + k + 1, total⟩ := by
  intro n
  induction n with
  | zero => intro k loaded h; omega
  | succ m ih =>
    intro k loaded h
    cases k with
    | zero => simp [traceFrom]
    | succ j =>
      rw [traceFrom, List.getElem?_cons_succ, ih j (loaded + 1) (by omega),
        show loaded + 1 + j + 1 = loaded + (j + 1) + 1 from by omega]

theorem traceFrom_mem (total : Nat) :
    ∀ (n loaded : Nat) (p : Progress), p ∈ traceFrom loaded total n →
      ∃ k, k < n ∧ p = ⟨loaded + k + 1, total⟩ := by
  intro n
  induction n with
  | zero => intro loaded p h; cases h
  | succ m ih =>
    intro loaded p h
    rcases List.mem_cons.mp h with h | h
    · exact ⟨0, by omega, h⟩
    · obtain ⟨k, hk, hp⟩ := ih (loaded + 1) p h
      exact ⟨k + 1, by omega, by rw [hp]; congr 1; omega⟩

theorem traceFrom_getLast? (total : Nat) :
    ∀ (n loaded : Nat) (a : Progress),
      (a :: traceFrom loaded total n).getLast? =
        some (if n = 0 then a else ⟨loaded + n, total⟩) := by
  intro n
  induction n with
  | zero => intro loaded a; rfl
  | succ m ih =>
    intro loaded a
    show (a :: ⟨loaded + 1, total⟩ :: traceFrom (loaded + 1) total m).getLast? = _
    rw [List.getLast?_cons_cons, ih (loaded + 1) ⟨loaded + 1, total⟩]
    cases m with
    | zero => simp
    | succ j =>
      rw [if_neg (Nat.succ_ne_zero j), if_neg (Nat.succ_ne_zero (j + 1)),
        show loaded + 1 + (j + 1) = loaded + (j + 1 + 1) from by omega]

theorem tileCoords_length (g : GridSize) :
    (tileCoords g).length = g.x * g.y := by
  simp [tileCoords]

theorem runQueue_snd_lookup (env : CanvasEnv) (fetch : Nat × Nat → Option Image) :
    ∀ (l : List (Nat × Nat)) (loaded total : Nat) (c : Nat × Nat), c ∈ l →
      ((runQueue env fetch l loaded total).2).lookup c =
        some (processTileResult env fetch c) := by
  intro l
  induction l with
  | nil => intro _ _ c h; cases h
  | cons d rest ih =>
    intro loaded total c hc
    simp only [runQueue, List.lookup]
    by_cases hcd : c = d
    · subst hcd
      simp
    · have : (c == d) = false := by simpa using hcd
      rw [this]
      rcases List.mem_cons.mp hc with h | h
      · exact absurd h hcd
      · exact ih (loaded + 1) total c h

theorem stitch_trace_eq (env : CanvasEnv) (fetch : Nat × Nat → Option Image)
    (zoom : Nat) (grid : GridSize) (order : List (Nat × Nat))
    (hg : GRID_SIZES.find? (fun g => g.zoom == zoom) = some grid) :
    (stitchStreetViewImage env fetch zoom order).progressTrace =
      ⟨0, (tileCoords grid).length⟩ ::
        traceFrom 0 (tileCoords grid).length order.length := by
  rw [stitchStreetViewImage, hg]
  cases h : env.main <;> simp [h, runQueue_fst]

theorem stitch_results_eq (env : CanvasEnv) (fetch : Nat × Nat → Option Image)
    (zoom : Nat) (grid : GridSize) (order : List (Nat × Nat))
    (hg : GRID_SIZES.find? (fun g => g.zoom == zoom) = some grid) :
    (stitchStreetViewImage env fetch zoom order).results =
      (runQueue env fetch order 0 (tileCoords grid).length).2 := by
  rw [stitchStreetViewImage, hg]
  cases h : env.main <;> simp [h]

theorem stitch_result_err (env : CanvasEnv) (fetch : Nat × Nat → Option Image)
    (zoom : Nat) (grid : GridSize) (order : List (Nat × Nat))
    (hg : GRID_SIZES.find? (fun g => g.zoom == zoom) = some grid)
    (hm : env.main = false) :
    (stitchStreetViewImage env fetch zoom order).result =
      .error .renderingUnavailable := by
  rw [stitchStreetViewImage, hg]
  simp [hm]

theorem stitch_result_ok (env : CanvasEnv) (fetch : Nat × Nat → Option Image)
    (zoom : Nat) (grid : GridSize) (order : List (Nat × Nat))
    (hg : GRID_SIZES.find? (fun g => g.zoom == zoom) = some grid)
    (hm : env.main = true) :
    (stitchStreetViewImage env fetch zoom order).result =
      .ok (removeHorizontalWrapCtx env.wrapRead env.wrapWrite
        (cropBlackEdgesCtx env.cropRead env.cropWrite
          (compositeImage grid
            (runQueue env fetch order 0 (tileCoords grid).length).2))) := by
  rw [stitchStreetViewImage, hg]
  simp [hm]

theorem lookupResult_of_all_none (rs : List ((Nat × Nat) × Option Image))
    (hrs : ∀ pr ∈ rs, pr.2 = none) (c : Nat × Nat) :
    lookupResult rs c = none := by
  induction rs with
  | nil => rfl
  | cons pr rest ih =>
    obtain ⟨d, v⟩ := pr
    have hv : v = none := hrs (d, v) (List.mem_cons_self _ _)
    simp only [lookupResult, List.lookup]
    cases hcd : c == d with
    | true => simp [hv]
    | false =>
      have := ih (fun p hp => hrs p (List.mem_cons_of_mem _ hp))
      simpa [lookupResult] using this

theorem compositeImage_all_absent (g : GridSize) :
    compositeImage g (allAbsentResults g) =
      blackImage (g.x * TILE_SIZE) (g.y * TILE_SIZE) := by
  have hnone : ∀ c, lookupResult (allAbsentResults g) c = none := by
    intro c
    refine lookupResult_of_all_none _ ?_ c
    intro pr hpr
    simp only [allAbsentResults, List.mem_map] at hpr
    obtain ⟨d, _, rfl⟩ := hpr
    rfl
  show (tileCoords g).foldl _ _ = _
  generalize blackImage (g.x * TILE_SIZE) (g.y * TILE_SIZE) = init
  induction tileCoords g generalizing init with
  | nil => rfl
  | cons c rest ih =>
    rw [List.foldl_cons, hnone c]
    exact ih init

theorem isRowBlack_blackImage (w h : Nat) (hw : 0 < w) (y : Nat) :
    isRowBlack (blackImage w h) y = true := by
  simp only [isRowBlack, blackImage, isBrightPixel, blackPixel]
  simp only [show (decide (25 < 0) : Bool) = false from rfl, Bool.or_self,
    List.countP_false, Function.const_apply, Nat.mul_zero, Bool.and_eq_true,
    decide_eq_true_eq]
  omega

theorem cropBlackEdges_blackImage (w h : Nat) (hw : 0 < w) :
    cropBlackEdges (blackImage w h) = blackImage w h := by
  have hrows : leastWitness (fun y => !isRowBlack (blackImage w h) y)
      (blackImage w h).height = none := by
    refine leastWitness_eq_none ?_
    intro y _
    rw [isRowBlack_blackImage w h hw y]
    rfl
  rw [cropBlackEdges, cropBlackEdgesCtx]
  rw [hrows]
  rfl

theorem fullTrace_getElem? (T k : Nat) (hk : k ≤ T) :
    (Progress.mk 0 T :: traceFrom 0 T T)[k]? = some ⟨k, T⟩ := by
  cases k with
  | zero => simp
  | succ j =>
    rw [List.getElem?_cons_succ, traceFrom_getElem? T T j 0 (by omega)]
    simp

theorem fullTrace_getLast? (T : Nat) :
    (Progress.mk 0 T :: traceFrom 0 T T).getLast? = some ⟨T, T⟩ := by
  rw [traceFrom_getLast? T T 0 ⟨0, T⟩]
  cases T with
  | zero => rfl
  | succ m => simp

/-- C1: on a supported zoom level, for any fetch outcomes, any rendering
environment and any worker completion order, the emitted progress sequence
starts at `{0, columns × rows}`, has one further emission per settled tile,
has `loaded` monotonically non-decreasing and bounded by `total`, keeps
`total` fixed, and ends at `{total, total}`. -/
theorem stitch_progress_spec (env : CanvasEnv) (fetch : Nat × Nat → Option Image)
    (zoom : Nat) (grid : GridSize) (order : List (Nat × Nat))
    (hg : GRID_SIZES.find? (fun g => g.zoom == zoom) = some grid)
    (hp : order.Perm (tileCoords grid)) :
    (stitchStreetViewImage env fetch zoom order).progressTrace.head? =
        some ⟨0, grid.x * grid.y⟩ ∧
      (stitchStreetViewImage env fetch zoom order).progressTrace.length =
        grid.x * grid.y + 1 ∧
      (∀ (i j : Nat) (pi pj : Progress), i ≤ j →
        (stitchStreetViewImage env fetch zoom order).progressTrace[i]? = some pi →
        (stitchStreetViewImage env fetch zoom order).progressTrace[j]? = some pj →
        pi.loaded ≤ pj.loaded) ∧
      (∀ p ∈ (stitchStreetViewImage env fetch zoom order).progressTrace,
        p.loaded ≤ p.total ∧ p.total = grid.x * grid.y) ∧
      (stitchStreetViewImage env fetch zoom order).progressTrace.getLast? =
        some ⟨grid.x * grid.y, grid.x * grid.y⟩ := by
  have hT : (tileCoords grid).length = grid.x * grid.y := tileCoords_length grid
  have hlen : order.length = grid.x * grid.y := by rw [hp.length_eq, hT]
  have htr : (stitchStreetViewImage env fetch zoom order).progressTrace =
      Progress.mk 0 (grid.x * grid.y) ::
        traceFrom 0 (grid.x * grid.y) (grid.x * grid.y) := by
    rw [stitch_trace_eq env fetch zoom grid order hg, hT, hlen]
  rw [htr]
  refine ⟨rfl, ?_, ?_, ?_, fullTrace_getLast? (grid.x * grid.y)⟩
  · simp [traceFrom_length]
  · intro i j pi pj hij hpi hpj
    have hjlen : j < (Progress.mk 0 (grid.x * grid.y) ::
        traceFrom 0 (grid.x * grid.y) (grid.x * grid.y)).length := by
      by_contra hc
      rw [List.getElem?_eq_none (by omega)] at hpj
      cases hpj
    have hlen2 : (Progress.mk 0 (grid.x * grid.y) ::
        traceFrom 0 (grid.x * grid.y) (grid.x * grid.y)).length =
        grid.x * grid.y + 1 := by
      simp [traceFrom_length]
    rw [fullTrace_getElem? (grid.x * grid.y) i (by omega)] at hpi
    rw [fullTrace_getElem? (grid.x * grid.y) j (by omega)] at hpj
    cases hpi
    cases hpj
    exact hij
  · intro p hmem
    rcases List.mem_cons.mp hmem with h | h
    · rw [h]
      exact ⟨Nat.zero_le _, rfl⟩
    · obtain ⟨k, hk, hpk⟩ := traceFrom_mem (grid.x * grid.y) (grid.x * grid.y) 0 p h
      rw [hpk]
      refine ⟨?_, rfl⟩
      show 0 + k + 1 ≤ grid.x * grid.y
      omega

/-- Witness for C1 at zoom 3 with every fetch failing and row-major
completion order. -/
theorem stitch_progress_spec_witness :
    (stitchStreetViewImage CanvasEnv.allOk (fun _ => none) 3
        (tileCoords ⟨3, 8, 4⟩)).progressTrace.head? = some ⟨0, 32⟩ ∧
      (stitchStreetViewImage CanvasEnv.allOk (fun _ => none) 3
        (tileCoords ⟨3, 8, 4⟩)).progressTrace.getLast? = some ⟨32, 32⟩ := by
  have h := stitch_progress_spec CanvasEnv.allOk (fun _ => none) 3 ⟨3, 8, 4⟩
    (tileCoords ⟨3, 8, 4⟩) (by decide) (List.Perm.refl _)
  exact ⟨h.1, h.2.2.2.2⟩

/-- C2: on a supported zoom level every retry-exhausted tile is recorded as
Absent at its coordinate, the job still completes with an encoded image,
and no per-tile failure reaches the caller — for every fetch oracle,
including the one failing every tile. -/
theorem stitch_tile_failures_absorbed (env : CanvasEnv)
    (fetch : Nat × Nat → Option Image) (zoom : Nat) (grid : GridSize)
    (order : List (Nat × Nat))
    (hg : GRID_SIZES.find? (fun g => g.zoom == zoom) = some grid)
    (_hp : order.Perm (tileCoords grid)) (hm : env.main = true) :
    (∃ img, (stitchStreetViewImage env fetch zoom order).result =
        Except.ok img) ∧
      ∀ c ∈ order, fetch c = none →
        lookupResult (stitchStreetViewImage env fetch zoom order).results c =
          none := by
  refine ⟨⟨_, stitch_result_ok env fetch zoom grid order hg hm⟩, ?_⟩
  intro c hc hfc
  rw [stitch_results_eq env fetch zoom grid order hg, lookupResult,
    runQueue_snd_lookup env fetch order 0 (tileCoords grid).length c hc]
  simp [processTileResult, hfc]

/-- Witness for C2: zoom 3, every tile fetch fails; the job returns an
image and coordinate (0,0) is recorded Absent. -/
theorem stitch_tile_failures_absorbed_witness :
    (∃ img, (stitchStreetViewImage CanvasEnv.allOk (fun _ => none) 3
        (tileCoords ⟨3, 8, 4⟩)).result = Except.ok img) ∧
      lookupResult (stitchStreetViewImage CanvasEnv.allOk (fun _ => none) 3
        (tileCoords ⟨3, 8, 4⟩)).results (0, 0) = none := by
  have h := stitch_tile_failures_absorbed CanvasEnv.allOk (fun _ => none) 3
    ⟨3, 8, 4⟩ (tileCoords ⟨3, 8, 4⟩) (by decide) (List.Perm.refl _) rfl
  exact ⟨h.1, h.2 (0, 0) (by decide) rfl⟩

/-- C3: an unsupported zoom level fails immediately with `InvalidZoom`:
empty progress trace, no fetch issued, empty result store. -/
theorem stitch_invalid_zoom (env : CanvasEnv) (fetch : Nat × Nat → Option Image)
    (zoom : Nat) (order : List (Nat × Nat))
    (h : GRID_SIZES.find? (fun g => g.zoom == zoom) = none) :
    stitchStreetViewImage env fetch zoom order =
      ⟨[], [], [], .error .invalidZoom⟩ := by
  rw [stitchStreetViewImage, h]

/-- Witness for C3 at the spec's example zoom 99. -/
theorem stitch_invalid_zoom_witness :
    stitchStreetViewImage CanvasEnv.allOk (fun _ => none) 99 [] =
      ⟨[], [], [], .error .invalidZoom⟩ :=
  stitch_invalid_zoom CanvasEnv.allOk (fun _ => none) 99 [] (by decide)

/-- C4 counterexample: `cropBlackEdges` is not idempotent.  On `ex4` the
first pass crops to the 8×5 region [1,8]×[0,4]; relative to the new origin
the sampling stride no longer hits the bright pixels of the top rows, so a
second pass crops further, to 8×1. -/
theorem cropBlackEdges_not_idempotent :
    cropBlackEdges (cropBlackEdges ex4) ≠ cropBlackEdges ex4 :=
  fun h => absurd (congrArg Image.height h) (by decide)

/-- C4 amended: a second application of the Border Cropper is not the
identity in general, but it never enlarges its input: it returns the first
output unchanged or crops it to a contiguous subregion. -/
theorem cropBlackEdges_second_application (img : Image) :
    (cropBlackEdges (cropBlackEdges img) = cropBlackEdges img ∨
        IsSubregion (cropBlackEdges (cropBlackEdges img)) (cropBlackEdges img)) ∧
      (cropBlackEdges (cropBlackEdges img)).width ≤ (cropBlackEdges img).width ∧
      (cropBlackEdges (cropBlackEdges img)).height ≤
        (cropBlackEdges img).height :=
  cropBlackEdgesCtx_frame true true (cropBlackEdges img)

/-- C5 counterexample: `ex5` has more than 2% of ALL its pixels bright
(1 of 17 ≈ 5.9%), yet the classifier — which only inspects every 16th
pixel — classifies it blank. -/
theorem isTileBlack_all_pixels_cex :
    50 * brightCountAll ex5 > ex5.width * ex5.height ∧
      isTileBlack ex5 = true := by
  decide

/-- C5 amended: an image in which more than 2% of the SAMPLED pixels
(every 16th, row-major) exceed the brightness threshold is classified
non-blank. -/
theorem isTileBlack_sampled_fraction (img : Image)
    (h : 50 * tileSampleBrightCount img > tileSampleCount img) :
    isTileBlack img = false := by
  rw [isTileBlack]
  have hn : ¬(50 * tileSampleBrightCount img < tileSampleCount img) := by omega
  simp [hn]

/-- Witness for the amended C5 on a 4×4 all-bright image. -/
theorem isTileBlack_sampled_fraction_witness :
    50 * tileSampleBrightCount allBright4 > tileSampleCount allBright4 ∧
      isTileBlack allBright4 = false :=
  ⟨by decide, isTileBlack_sampled_fraction allBright4 (by decide)⟩

/-- C6: an all-black image (all channel values 0) of any positive
dimensions is classified blank. -/
theorem isTileBlack_all_black (img : Image) (hw : 0 < img.width)
    (hh : 0 < img.height)
    (hb : ∀ x y, x < img.width → y < img.height → img.pix x y = blackPixel) :
    isTileBlack img = true := by
  have hcount : tileSampleBrightCount img = 0 := by
    rw [tileSampleBrightCount]
    refine List.countP_eq_zero.mpr ?_
    intro p hmem
    simp only [List.mem_map, List.mem_range] at hmem
    obtain ⟨k, hk, rfl⟩ := hmem
    have hpos : 0 < img.width * img.height := Nat.mul_pos hw hh
    have h16 : 16 * k < img.width * img.height := by
      simp only [tileSampleCount] at hk
      omega
    have hx : (16 * k) % img.width < img.width := Nat.mod_lt _ hw
    have hy : (16 * k) / img.width < img.height :=
      Nat.div_lt_of_lt_mul (by omega)
    rw [hb _ _ hx hy]
    decide
  have hne : tileSampleCount img ≠ 0 := by
    rw [tileSampleCount]
    have := Nat.mul_pos hw hh
    omega
  rw [isTileBlack, hcount]
  simp only [Bool.and_eq_true, decide_eq_true_eq]
  omega

/-- Witness for C6 on a 3×2 all-black image. -/
theorem isTileBlack_all_black_witness : isTileBlack (blackImage 3 2) = true :=
  isTileBlack_all_black (blackImage 3 2) (by decide) (by decide)
    (fun _ _ _ _ => rfl)

/-- C7 counterexample: with the classifier's, cropper's and wrap detector's
rendering contexts all unobtainable (only the compositor's available), the
job does NOT fail with `RenderingUnavailable` — it completes with an
encoded image.  The classifier falls back to "non-blank" and the
cropper/wrap detector pass the image through unchanged. -/
theorem stitch_ctx_failure_cex :
    envNoClassifyCtx.classify = false ∧ envNoClassifyCtx.cropRead = false ∧
      envNoClassifyCtx.wrapRead = false ∧
      (∃ img, (stitchStreetViewImage envNoClassifyCtx (fun _ => some grayTile) 3
        (tileCoords ⟨3, 8, 4⟩)).result = Except.ok img) ∧
      (stitchStreetViewImage envNoClassifyCtx (fun _ => some grayTile) 3
        (tileCoords ⟨3, 8, 4⟩)).result ≠
          Except.error StitchError.renderingUnavailable := by
  have hok := stitch_result_ok envNoClassifyCtx (fun _ => some grayTile) 3
    ⟨3, 8, 4⟩ (tileCoords ⟨3, 8, 4⟩) (by decide) rfl
  refine ⟨rfl, rfl, rfl, ⟨_, hok⟩, ?_⟩
  rw [hok]
  intro hcontra
  exact Except.noConfusion hcontra

/-- C7 amended: only failure to obtain the main compositing canvas's
context is fatal (surfaced as `RenderingUnavailable`); when that context is
available the job returns an image regardless of the other context
outcomes. -/
theorem stitch_rendering_failure_main_only (env : CanvasEnv)
    (fetch : Nat × Nat → Option Image) (zoom : Nat) (grid : GridSize)
    (order : List (Nat × Nat))
    (hg : GRID_SIZES.find? (fun g => g.zoom == zoom) = some grid) :
    (env.main = false →
        (stitchStreetViewImage env fetch zoom order).result =
          Except.error StitchError.renderingUnavailable) ∧
      (env.main = true →
        ∃ img, (stitchStreetViewImage env fetch zoom order).result =
          Except.ok img) :=
  ⟨fun hm => stitch_result_err env fetch zoom grid order hg hm,
   fun hm => ⟨_, stitch_result_ok env fetch zoom grid order hg hm⟩⟩

/-- Witness for the amended C7: a failed main context is fatal, an
available one is not. -/
theorem stitch_rendering_failure_main_only_witness :
    (stitchStreetViewImage envNoMainCtx (fun _ => none) 3 []).result =
        Except.error StitchError.renderingUnavailable ∧
      ∃ img, (stitchStreetViewImage CanvasEnv.allOk (fun _ => none) 3
        []).result = Except.ok img :=
  ⟨(stitch_rendering_failure_main_only envNoMainCtx (fun _ => none) 3
      ⟨3, 8, 4⟩ [] (by decide)).1 rfl,
   (stitch_rendering_failure_main_only CanvasEnv.allOk (fun _ => none) 3
      ⟨3, 8, 4⟩ [] (by decide)).2 rfl⟩

/-- C8: for a grid with positive dimensions, compositing an all-Absent
tile-result set yields the `columns×512 × rows×512` buffer whose every
pixel is the black sentinel, and the Border Cropper returns that composite
unchanged (without any failure — the embedding is total). -/
theorem composite_all_absent_spec (g : GridSize) (hx : 0 < g.x)
    (_hy : 0 < g.y) :
    (compositeImage g (allAbsentResults g)).width = g.x * TILE_SIZE ∧
      (compositeImage g (allAbsentResults g)).height = g.y * TILE_SIZE ∧
      (∀ x y, (compositeImage g (allAbsentResults g)).pix x y = blackPixel) ∧
      cropBlackEdges (compositeImage g (allAbsentResults g)) =
        compositeImage g (allAbsentResults g) := by
  rw [compositeImage_all_absent g]
  exact ⟨rfl, rfl, fun _ _ => rfl,
    cropBlackEdges_blackImage _ _ (Nat.mul_pos hx (by decide))⟩

/-- Witness for C8 on the zoom-3 grid. -/
theorem composite_all_absent_spec_witness :
    (compositeImage ⟨3, 8, 4⟩ (allAbsentResults ⟨3, 8, 4⟩)).width = 4096 ∧
      cropBlackEdges (compositeImage ⟨3, 8, 4⟩ (allAbsentResults ⟨3, 8, 4⟩)) =
        compositeImage ⟨3, 8, 4⟩ (allAbsentResults ⟨3, 8, 4⟩) := by
  have h := composite_all_absent_spec ⟨3, 8, 4⟩ (by decide) (by decide)
  exact ⟨h.1, h.2.2.2⟩

/-- C9: the Resolution Catalog query returns exactly zoom 3 → 8×4 tiles
(4096×2048, label "High", 32 tiles) and zoom 4 → 16×8 tiles (8192×4096,
label "Maximum", 128 tiles), and every entry satisfies
`tileCount = columns × rows` with dimensions `columns×512 × rows×512`. -/
theorem getAvailableResolutions_spec :
    getAvailableResolutions =
      [⟨3, 4096, 2048, "High", 32⟩, ⟨4, 8192, 4096, "Maximum", 128⟩] ∧
      ∀ r ∈ getAvailableResolutions, ∃ g ∈ GRID_SIZES,
        g.zoom = r.zoom ∧ r.tileCount = g.x * g.y ∧
        r.width = g.x * TILE_SIZE ∧ r.height = g.y * TILE_SIZE := by
  refine ⟨rfl, ?_⟩
  decide

/-- C10: the Border Cropper returns its input or a contiguous subregion of
it (dimensions never grow, surviving pixels unaltered), and the Wrap-Seam
Detector returns its input or a full-height left prefix of its columns. -/
theorem crop_and_wrap_frame_effect (img : Image) :
    ((cropBlackEdges img = img ∨ IsSubregion (cropBlackEdges img) img) ∧
        (cropBlackEdges img).width ≤ img.width ∧
        (cropBlackEdges img).height ≤ img.height) ∧
      ((removeHorizontalWrap img = img ∨
          ∃ k, k ≤ img.width ∧
            removeHorizontalWrap img = subImage img 0 0 k img.height) ∧
        (removeHorizontalWrap img).height = img.height ∧
        (removeHorizontalWrap img).width ≤ img.width) := by
  refine ⟨cropBlackEdgesCtx_frame true true img, ?_⟩
  rcases removeHorizontalWrapCtx_shape true true img with h | ⟨k, hk, h⟩
  · exact ⟨Or.inl h, congrArg Image.height h,
      Nat.le_of_eq (congrArg Image.width h)⟩
  · exact ⟨Or.inr ⟨k, hk, h⟩, by rw [removeHorizontalWrap, h]; rfl,
      by rw [removeHorizontalWrap, h]; exact hk⟩
